import Mathlib

/-!
Verification of the Unclear-Software-Requirement detector.

This file shallowly embeds the core logic of `detector.py` and the
interface of `model.py` into Lean.  Text is modelled as `String`
(lists of characters), probabilities and classifier weights as
rationals.  The scikit-learn classifier is trained externally at
process start, so `predict_unclear` and `explain_features` enter the
embedding as function parameters of the analyzer; the NLTK word
tokenizer is an external library resource and is modelled from the
specification.  Everything else is translated directly from the
Python source.
-/

namespace UnclearReq

/-! ## Character and string helpers -/

/-- Lowercase every character of a string, the model of Python
`str.lower()` on the ASCII text handled here. -/
def lowerStr (s : String) : String := ⟨s.data.map Char.toLower⟩

/-- Boolean test that the first list starts the second one. -/
def listHasPre : List Char → List Char → Bool
  | [], _ => true
  | _ :: _, [] => false
  | a :: as, b :: bs => a == b && listHasPre as bs

/-- Boolean test that the first list occurs inside the second one,
the model of the Python `in` operator on strings. -/
def listHasSub (n : List Char) : List Char → Bool
  | [] => listHasPre n []
  | c :: cs => listHasPre n (c :: cs) || listHasSub n cs

/-- String wrapper for `listHasSub`. -/
def strHasSub (n s : String) : Bool := listHasSub n.data s.data

/-- Case-insensitive test that the (lowercase) pattern starts the text,
the model of matching an `re.IGNORECASE` literal pattern. -/
def preCIMatch : List Char → List Char → Bool
  | [], _ => true
  | _ :: _, [] => false
  | a :: as, b :: bs => a == b.toLower && preCIMatch as bs

/-- Fuelled worker for `replaceCI`; the fuel is an upper bound on the
number of characters still to scan, so structural recursion suffices. -/
def replaceCIFuel (pat repl : List Char) : Nat → List Char → List Char
  | _, [] => []
  | 0, text => text
  | fuel + 1, c :: cs =>
    if !pat.isEmpty && preCIMatch pat (c :: cs) then
      repl ++ replaceCIFuel pat repl fuel ((c :: cs).drop pat.length)
    else
      c :: replaceCIFuel pat repl fuel cs

/-- Replace every non-overlapping, case-insensitive occurrence of the
(lowercase, regex-literal) pattern by the replacement, scanning left to
right: the model of `re.sub(pat, repl, text, flags=re.IGNORECASE)` for
patterns without regex metacharacters. -/
def replaceCI (pat repl text : List Char) : List Char :=
  replaceCIFuel pat repl text.length text

/-- Replace the first (case-sensitive) occurrence only, the model of
Python `str.replace(old, new, 1)`. -/
def replaceFirstList (old new : List Char) : List Char → List Char
  | [] => []
  | c :: cs =>
    if listHasPre old (c :: cs) then new ++ (c :: cs).drop old.length
    else c :: replaceFirstList old new cs

/-! ## Lexicon matcher (detector.py) -/

/-- The fixed vague-term lexicon `VAGUE_WORDS` of `detector.py`. -/
def VAGUE_WORDS : List String :=
  ["fast", "quick", "efficient", "user-friendly", "secure", "many", "large",
   "simple", "easy", "robust", "scalable", "flexible", "reliable"]

/-- `detect_vague_terms`: the lexicon terms occurring (as case-insensitive
substrings) in the text, in lexicon-declaration order. -/
def detect_vague_terms (text : String) : List String :=
  VAGUE_WORDS.filter fun w => listHasSub w.data (lowerStr text).data

/-- Stable insertion of a string into a list sorted by decreasing length:
the new element goes before elements of smaller or equal length. -/
def insertByLen (s : String) : List String → List String
  | [] => [s]
  | t :: ts => if t.length ≤ s.length then s :: t :: ts else t :: insertByLen s ts

/-- Stable sort by decreasing string length, the model of Python
`sorted(l, key=len, reverse=True)`. -/
def sortByLenDesc : List String → List String
  | [] => []
  | s :: ss => insertByLen s (sortByLenDesc ss)

/-- `highlight_vague_terms`: wrap every case-insensitive occurrence of a
matched lexicon term in `**…**`, longest terms first.  The membership
test uses the lowercase of the original text throughout, while the
substitutions chain on the accumulated result, exactly as in the source. -/
def highlight_vague_terms (text : String) : String :=
  (sortByLenDesc VAGUE_WORDS).foldl
    (fun highlighted term =>
      if listHasSub term.data (lowerStr text).data then
        ⟨replaceCI term.data ("**" ++ term ++ "**").data highlighted.data⟩
      else highlighted)
    text

/-- `highlight_vague_terms_colored`: same matching logic with a
`:red[…]` wrapper. -/
def highlight_vague_terms_colored (text : String) : String :=
  (sortByLenDesc VAGUE_WORDS).foldl
    (fun highlighted term =>
      if listHasSub term.data (lowerStr text).data then
        ⟨replaceCI term.data (":red[" ++ term ++ "]").data highlighted.data⟩
      else highlighted)
    text

/-! ## Structural checks (detector.py) -/

/-- Characters that belong to a word token. -/
def isTokenChar (c : Char) : Bool := c.isAlphanum || c == '-' || c == '_'

/-- Emit the pending (reversed) token run, if any. -/
def flushRun (run : List Char) : List (List Char) :=
  if run.isEmpty then [] else [run.reverse]

/-- Worker for `word_tokenize`: maximal runs of word characters become
tokens, every other non-whitespace character is its own token. -/
def tokenizeAux : List Char → List Char → List (List Char)
  | [], run => flushRun run
  | c :: cs, run =>
    if c.isWhitespace then flushRun run ++ tokenizeAux cs []
    else if isTokenChar c then tokenizeAux cs (c :: run)
    else flushRun run ++ [c] :: tokenizeAux cs []

/-- Modelled from the spec: `nltk.tokenize.word_tokenize`, the external
locale-aware word tokenizer used by `detect_complex_sentence`, rendered
as splitting the text into maximal runs of word characters with each
remaining non-whitespace character (punctuation) its own token. -/
def word_tokenize (text : String) : List String :=
  (tokenizeAux text.data []).map fun l => ⟨l⟩

/-- `detect_complex_sentence`: the token count strictly exceeds the
threshold. -/
def detect_complex_sentence (text : String) (maxLength : Nat := 20) : Bool :=
  decide ((word_tokenize text).length > maxLength)

/-- Word characters in the sense of the regex class `\w` (ASCII). -/
def isWordChar (c : Char) : Bool := c.isAlphanum || c == '_'

/-- Whether the character at the given position is a word character
(positions past the end count as non-word). -/
def wordAt (cs : List Char) (p : Nat) : Bool :=
  match cs.drop p with
  | [] => false
  | c :: _ => isWordChar c

/-- Whether a regex word boundary lies at the given position. -/
def isBoundaryAt (cs : List Char) (p : Nat) : Bool :=
  (match p with
   | 0 => false
   | q + 1 => wordAt cs q) != wordAt cs p

/-- The unit alternatives of the measurable-constraint regex of
`detect_missing_constraints`, with the optional plural letters expanded
and everything lowercased for the case-insensitive comparison. -/
def MEASURABLE_UNITS : List String :=
  ["seconds", "second", "minutes", "minute", "ms", "mb", "gb", "%", "users", "user"]

/-- Whether the measurable-constraint pattern matches starting at
position `i`: a word boundary, one or more digits, optional whitespace,
a unit alternative, and a trailing word boundary.  Taking the maximal
digit and whitespace runs loses no matches because no unit alternative
starts with a digit or whitespace character. -/
def constraintMatchAt (cs : List Char) (i : Nat) : Bool :=
  let rest := cs.drop i
  let ds := rest.takeWhile Char.isDigit
  !ds.isEmpty && isBoundaryAt cs i &&
    (let rest2 := rest.drop ds.length
     let ws := rest2.takeWhile Char.isWhitespace
     let rest3 := rest2.drop ws.length
     MEASURABLE_UNITS.any fun u =>
       ((rest3.take u.data.length).map Char.toLower == u.data) &&
       isBoundaryAt cs (i + ds.length + ws.length + u.data.length))

/-- `detect_missing_constraints`: true when the measurable-constraint
regex finds no match anywhere in the text. -/
def detect_missing_constraints (text : String) : Bool :=
  !((List.range (text.data.length + 1)).any fun i => constraintMatchAt text.data i)

/-! ## ML layer interface (model.py)

The classifier of `model.py` is a scikit-learn `CountVectorizer` plus
`LogisticRegression` fitted once at process start; its fitted
coefficients are produced by an external numerical solver, so the two
functions it exposes, `predict_unclear` and `explain_features`, enter
the embedding as parameters of the analyzer (written `pu` and `ef`),
with probabilities and coefficients as rationals in place of floats. -/

/-- Render a weight the way the analyzer displays it: rounded to two
decimal places (rational rounding standing in for Python float
`round(wt, 2)`) and printed without trailing zero in the hundredths. -/
def fmtWeight (q : ℚ) : String :=
  let n : ℤ := round (q * 100)
  let sign := if n < 0 then "-" else ""
  let m := n.natAbs
  let ip := m / 100
  let fr := m % 100
  sign ++ toString ip ++ "." ++
    (if fr % 10 == 0 then toString (fr / 10)
     else if fr < 10 then "0" ++ toString fr
     else toString fr)

/-- The feature-importance reason string appended in step 5 of
`analyze_requirement`. -/
def featureReason (feats : List (String × ℚ)) : String :=
  "Top influential words (ML): " ++
    String.intercalate ", " (feats.map fun p => p.1 ++ " (" ++ fmtWeight p.2 ++ ")")

/-! ## Requirement analyzer (detector.py) -/

/-- The reason string listing the detected vague terms. -/
def vagueReasonStr (vague : List String) : String :=
  "Vague terms detected: " ++ String.intercalate ", " vague

/-- The fixed ML-ambiguity reason string. -/
def mlAmbiguityReason : String := "ML model suggests possible ambiguity."

/-- The reasons accumulated by steps 1-3 of `analyze_requirement`
(vague terms, complexity, missing constraints), in source order. -/
def rulePhaseReasons (text : String) (maxLength : Nat) : List String :=
  (if (detect_vague_terms text).isEmpty then []
   else [vagueReasonStr (detect_vague_terms text)])
  ++ (if detect_complex_sentence text maxLength then ["Sentence too long or complex."] else [])
  ++ (if detect_missing_constraints text then ["No measurable constraints provided."] else [])

/-- The tags accumulated by steps 1-3 of `analyze_requirement`. -/
def rulePhaseTags (text : String) (maxLength : Nat) : List String :=
  (if (detect_vague_terms text).isEmpty then [] else ["VAGUE_TERMS"])
  ++ (if detect_complex_sentence text maxLength then ["COMPLEX_SENTENCE"] else [])
  ++ (if detect_missing_constraints text then ["NO_CONSTRAINTS"] else [])

/-- The ML-layer guard of `analyze_requirement`: the classifier
probability exceeds the threshold and the join of the reasons
accumulated so far does not contain the literal substring
`"Vague terms"`. -/
def mlFires (pu : String → ℚ) (text : String) (maxLength : Nat) (mlThreshold : ℚ) : Bool :=
  decide (pu text > mlThreshold) &&
    !(strHasSub "Vague terms" (String.join (rulePhaseReasons text maxLength)))

/-- All reasons accumulated by `analyze_requirement` before the final
classification, in source order. -/
def accumulatedReasons (pu : String → ℚ) (ef : String → List (String × ℚ))
    (text : String) (maxLength : Nat) (mlThreshold : ℚ) : List String :=
  rulePhaseReasons text maxLength
  ++ (if mlFires pu text maxLength mlThreshold then [mlAmbiguityReason] else [])
  ++ (if (ef text).isEmpty then [] else [featureReason (ef text)])

/-- All tags accumulated by `analyze_requirement`; step 5 never touches
the tags, so the explainer does not appear here. -/
def accumulatedTags (pu : String → ℚ) (text : String) (maxLength : Nat)
    (mlThreshold : ℚ) : List String :=
  rulePhaseTags text maxLength
  ++ (if mlFires pu text maxLength mlThreshold then ["ML_AMBIGUITY"] else [])

/-- Lexicographic (code-point) order on character lists, the order
Python `sorted` uses on strings. -/
def listCharLe : List Char → List Char → Bool
  | [], _ => true
  | _ :: _, [] => false
  | a :: as, b :: bs => if a == b then listCharLe as bs else decide (a.toNat < b.toNat)

/-- Insert a string into a lexicographically sorted list. -/
def insertSorted (s : String) : List String → List String
  | [] => [s]
  | t :: ts => if listCharLe s.data t.data then s :: t :: ts else t :: insertSorted s ts

/-- Sort a list of strings lexicographically, the model of Python
`sorted(tags)`. -/
def sortStrs : List String → List String
  | [] => []
  | s :: ss => insertSorted s (sortStrs ss)

/-- The verdict record returned by `analyze_requirement`. -/
structure Verdict where
  status : String
  reasons : List String
  tags : List String
  severity : Nat
deriving DecidableEq

/-- `analyze_requirement text max_length ml_threshold`: fuse the rule
checks and the ML layer into a verdict.  The status comes from the
count of accumulated reasons, the severity from the status string, the
tags are sorted, and an empty reason list is replaced by the fixed
well-defined sentence for display. -/
def analyze_requirement (pu : String → ℚ) (ef : String → List (String × ℚ))
    (text : String) (maxLength : Nat := 20) (mlThreshold : ℚ := 6/10) : Verdict :=
  let reasons := accumulatedReasons pu ef text maxLength mlThreshold
  let status :=
    if reasons.length = 0 then "Clear"
    else if reasons.length = 1 then "Partially Clear"
    else "Unclear"
  let severity :=
    if status = "Clear" then 1
    else if status = "Partially Clear" then 2
    else 3
  { status := status
    reasons := if reasons.isEmpty then ["Sentence appears well-defined."] else reasons
    tags := sortStrs (accumulatedTags pu text maxLength mlThreshold)
    severity := severity }

/-! ## Rewrite suggester (detector.py) -/

/-- The fixed measurable-placeholder phrase substituted for a vague
term; terms without a case fall back to themselves. -/
def replacementFor (term : String) : String :=
  if term = "fast" ∨ term = "quick" ∨ term = "efficient" then
    "respond within [X seconds]"
  else if term = "many" ∨ term = "large" then
    "[N] users"
  else if term = "user-friendly" then
    "achieve a usability score of at least [X]/[Y]"
  else if term = "scalable" ∨ term = "flexible" then
    "support up to [N] users without performance degradation"
  else if term = "robust" ∨ term = "reliable" then
    "maintain an uptime of [X]% over [Y] days"
  else if term = "secure" then
    "meet [X] security standard (e.g., OWASP Top 10)"
  else term

/-- The slice of present vague terms that iteration `iteration`
addresses: at most two terms, starting at offset `(iteration - 1) * 2`
into the terms present in the text in lexicon-declaration order. -/
def toFix (text : String) (iteration : Nat) : List String :=
  ((detect_vague_terms text).drop ((iteration - 1) * 2)).take 2

/-- Strip trailing spaces and periods, the model of
`str.rstrip(" .")`. -/
def rstripSpaceDot (s : String) : String :=
  ⟨(s.data.reverse.dropWhile fun c => c == ' ' || c == '.').reverse⟩

/-- `suggest_rewrite text tags iteration`: template-based rewrite.
With `VAGUE_TERMS`, substitute the placeholder phrase for each term of
the current two-term slice; with `NO_CONSTRAINTS`, append the generic
constraint sentence; with `COMPLEX_SENTENCE`, turn the first
`" and "` into `"; and "`. -/
def suggest_rewrite (text : String) (tags : List String) (iteration : Nat := 1) : String :=
  let afterVague :=
    if "VAGUE_TERMS" ∈ tags then
      (toFix text iteration).foldl
        (fun acc term => ⟨replaceCI term.data (replacementFor term).data acc.data⟩)
        text
    else text
  let afterConstraints :=
    if "NO_CONSTRAINTS" ∈ tags then
      rstripSpaceDot afterVague ++
        ". The system shall respond within [X seconds] for up to [N] users."
    else afterVague
  if "COMPLEX_SENTENCE" ∈ tags ∧ strHasSub " and " afterConstraints = true then
    ⟨replaceFirstList " and ".data "; and ".data afterConstraints.data⟩
  else afterConstraints

/-! ## Helper lemmas -/

theorem strDataAppend (s t : String) : (s ++ t).data = s.data ++ t.data := by
  cases s; cases t; rfl

theorem str_ne_of_head (a b : String) (h : a.data.head? ≠ b.data.head?) : a ≠ b := by
  intro e
  exact h (by rw [e])

theorem vagueReason_ne_ml (l : List String) : vagueReasonStr l ≠ mlAmbiguityReason := by
  apply str_ne_of_head
  have h3 : (vagueReasonStr l).data.head? = some 'V' := by
    show ("Vague terms detected: " ++ String.intercalate ", " l).data.head? = some 'V'
    rw [strDataAppend]
    rfl
  rw [h3]
  decide

theorem featureReason_ne_ml (fs : List (String × ℚ)) :
    featureReason fs ≠ mlAmbiguityReason := by
  apply str_ne_of_head
  have h3 : (featureReason fs).data.head? = some 'T' := by
    show ("Top influential words (ML): " ++
      String.intercalate ", " (fs.map fun p => p.1 ++ " (" ++ fmtWeight p.2 ++ ")")).data.head?
        = some 'T'
    rw [strDataAppend]
    rfl
  rw [h3]
  decide

theorem mem_insertSorted {a s : String} {l : List String} :
    a ∈ insertSorted s l ↔ a = s ∨ a ∈ l := by
  induction l with
  | nil => simp [insertSorted]
  | cons t ts ih =>
    simp only [insertSorted]
    split
    · simp
    · simp only [List.mem_cons, ih]
      tauto

theorem mem_sortStrs {a : String} {l : List String} : a ∈ sortStrs l ↔ a ∈ l := by
  induction l with
  | nil => simp [sortStrs]
  | cons s ss ih => simp [sortStrs, mem_insertSorted, ih]

theorem mlFires_iff (pu : String → ℚ) (text : String) (maxLength : Nat) (mlThreshold : ℚ) :
    mlFires pu text maxLength mlThreshold = true ↔
      (pu text > mlThreshold ∧
        strHasSub "Vague terms" (String.join (rulePhaseReasons text maxLength)) = false) := by
  simp [mlFires, Bool.and_eq_true, decide_eq_true_eq, Bool.not_eq_true']

theorem ml_mem_accumulated (pu : String → ℚ) (ef : String → List (String × ℚ))
    (text : String) (maxLength : Nat) (mlThreshold : ℚ) :
    mlAmbiguityReason ∈ accumulatedReasons pu ef text maxLength mlThreshold ↔
      mlFires pu text maxLength mlThreshold = true := by
  have hrule : mlAmbiguityReason ∉ rulePhaseReasons text maxLength := by
    simp only [rulePhaseReasons, List.mem_append]
    rintro ((h | h) | h)
    · split at h
      · simp at h
      · simp at h
        exact (vagueReason_ne_ml _) h.symm
    · split at h
      · simp at h
        exact absurd h (by decide)
      · simp at h
    · split at h
      · simp at h
        exact absurd h (by decide)
      · simp at h
  have hfeat : mlAmbiguityReason ∉ (if (ef text).isEmpty then []
      else [featureReason (ef text)]) := by
    split
    · simp
    · simp only [List.mem_singleton]
      intro h
      exact (featureReason_ne_ml _) h.symm
  constructor
  · intro h
    rcases List.mem_append.mp h with h' | h'
    · rcases List.mem_append.mp h' with h'' | h''
      · exact absurd h'' hrule
      · by_contra hm
        rw [Bool.not_eq_true] at hm
        simp [hm] at h''
    · exact absurd h' hfeat
  · intro h
    simp [accumulatedReasons, h]

theorem preCIMatch_self (l : List Char) : preCIMatch (l.map Char.toLower) l = true := by
  induction l with
  | nil => rfl
  | cons c cs ih => simp [preCIMatch, ih]

theorem replaceCIFuel_nil (pat repl : List Char) (fuel : Nat) :
    replaceCIFuel pat repl fuel [] = [] := by
  cases fuel <;> rfl

theorem replaceCI_whole (l pat repl : List Char) (hne : pat ≠ [])
    (h : l.map Char.toLower = pat) : replaceCI pat repl l = repl := by
  subst h
  cases l with
  | nil => simp at hne
  | cons c cs =>
    show replaceCIFuel _ repl (c :: cs).length (c :: cs) = repl
    rw [List.length_cons]
    rw [replaceCIFuel]
    rw [if_pos]
    · rw [show ((c :: cs).map Char.toLower).length = (c :: cs).length from List.length_map _ _]
      rw [List.drop_length]
      rw [replaceCIFuel_nil]
      simp
    · rw [preCIMatch_self]
      simp

theorem mlFires_false_of_le {pu : String → ℚ} {text : String} {maxLength : Nat}
    {mlThreshold : ℚ} (h : pu text ≤ mlThreshold) :
    mlFires pu text maxLength mlThreshold = false := by
  simp only [mlFires, gt_iff_lt]
  rw [decide_eq_false (not_lt.mpr h)]
  simp

/-! ## Claim theorems -/

/-- Claim C1: for every input text and parameters, the verdict status
and severity are strictly determined by the count of accumulated
reasons: 0 reasons give Clear/1, exactly 1 gives Partially Clear/2, and
2 or more give Unclear/3. -/
theorem c1_status_severity_from_reason_count (pu : String → ℚ)
    (ef : String → List (String × ℚ)) (text : String) (maxLength : Nat)
    (mlThreshold : ℚ) :
    ((analyze_requirement pu ef text maxLength mlThreshold).status =
      if (accumulatedReasons pu ef text maxLength mlThreshold).length = 0 then "Clear"
      else if (accumulatedReasons pu ef text maxLength mlThreshold).length = 1 then
        "Partially Clear"
      else "Unclear")
    ∧ ((analyze_requirement pu ef text maxLength mlThreshold).severity =
      if (accumulatedReasons pu ef text maxLength mlThreshold).length = 0 then 1
      else if (accumulatedReasons pu ef text maxLength mlThreshold).length = 1 then 2
      else 3) := by
  refine ⟨rfl, ?_⟩
  simp only [analyze_requirement]
  split_ifs <;> simp_all

/-- Claim C10: the reasons sequence of the returned verdict is never
empty: when no issue reason accumulated, the fixed well-defined
sentence is substituted after classification. -/
theorem c10_reasons_never_empty (pu : String → ℚ)
    (ef : String → List (String × ℚ)) (text : String) (maxLength : Nat)
    (mlThreshold : ℚ) :
    ((analyze_requirement pu ef text maxLength mlThreshold).reasons =
      if (accumulatedReasons pu ef text maxLength mlThreshold).isEmpty then
        ["Sentence appears well-defined."]
      else accumulatedReasons pu ef text maxLength mlThreshold)
    ∧ (analyze_requirement pu ef text maxLength mlThreshold).reasons ≠ [] := by
  refine ⟨rfl, ?_⟩
  simp only [analyze_requirement]
  cases h : (accumulatedReasons pu ef text maxLength mlThreshold).isEmpty <;>
    simp_all [List.isEmpty_iff]

/-- Claim C5 counterexample: highlighting is not idempotent; on the
input consisting of the single term, the second pass wraps the already
wrapped term again. -/
theorem c5_counterexample :
    highlight_vague_terms (highlight_vague_terms "fast") ≠
      highlight_vague_terms "fast" := by decide

/-- Claim C5 (amended): highlighting is not idempotent: a term already
wrapped in emphasis markers is matched again and re-wrapped, so the
second pass double-wraps it. -/
theorem c5_amended_double_wrap :
    highlight_vague_terms "fast" = "**fast**" ∧
    highlight_vague_terms (highlight_vague_terms "fast") = "****fast****" := by
  decide

/-- Claim C2 counterexample: with the same text and parameters, a
non-empty explainer output changes the status from Clear to Partially
Clear, so the feature-importance reason does influence classification. -/
theorem c2_counterexample :
    ((analyze_requirement (fun _ => 0) (fun _ => [("seconds", (1:ℚ)/2)])
      "The system shall respond in under 2 seconds." 20 (3/5)).status = "Partially Clear")
    ∧ ((analyze_requirement (fun _ => 0) (fun _ => [])
      "The system shall respond in under 2 seconds." 20 (3/5)).status = "Clear")
    ∧ ((analyze_requirement (fun _ => 0) (fun _ => [("seconds", (1:ℚ)/2)])
      "The system shall respond in under 2 seconds." 20 (3/5)).status ≠
      (analyze_requirement (fun _ => 0) (fun _ => [])
      "The system shall respond in under 2 seconds." 20 (3/5)).status) := by
  have hrule : rulePhaseReasons "The system shall respond in under 2 seconds." 20 = [] := by
    decide
  have hml : mlFires (fun _ => (0:ℚ)) "The system shall respond in under 2 seconds."
      20 (3/5) = false := mlFires_false_of_le (by norm_num)
  have h1 : accumulatedReasons (fun _ => (0:ℚ)) (fun _ => [("seconds", (1:ℚ)/2)])
      "The system shall respond in under 2 seconds." 20 (3/5) =
      [featureReason [("seconds", (1:ℚ)/2)]] := by
    simp [accumulatedReasons, hrule, hml]
  have h2 : accumulatedReasons (fun _ => (0:ℚ)) (fun _ => [])
      "The system shall respond in under 2 seconds." 20 (3/5) = [] := by
    simp [accumulatedReasons, hrule, hml]
  have hs1 : (analyze_requirement (fun _ => 0) (fun _ => [("seconds", (1:ℚ)/2)])
      "The system shall respond in under 2 seconds." 20 (3/5)).status = "Partially Clear" := by
    simp only [analyze_requirement]
    rw [h1]
    simp
  have hs2 : (analyze_requirement (fun _ => 0) (fun _ => [])
      "The system shall respond in under 2 seconds." 20 (3/5)).status = "Clear" := by
    simp only [analyze_requirement]
    rw [h2]
    simp
  refine ⟨hs1, hs2, ?_⟩
  rw [hs1, hs2]
  decide

/-- Claim C2 (amended): the feature-importance reason never adds a tag
(the tags are independent of the explainer output), but it does count
toward the reason total: a non-empty explainer output adds exactly one
reason compared to an empty one, and can therefore change the
status/severity classification. -/
theorem c2_amended_feature_reason_counts (pu : String → ℚ)
    (ef ef' : String → List (String × ℚ)) (text : String) (maxLength : Nat)
    (mlThreshold : ℚ) :
    ((analyze_requirement pu ef text maxLength mlThreshold).tags =
      (analyze_requirement pu ef' text maxLength mlThreshold).tags)
    ∧ (ef text ≠ [] →
      (accumulatedReasons pu ef text maxLength mlThreshold).length =
        (accumulatedReasons pu (fun _ => []) text maxLength mlThreshold).length + 1) := by
  refine ⟨rfl, fun h => ?_⟩
  rcases h' : ef text with _ | ⟨x, xs⟩
  · exact absurd h' h
  · simp [accumulatedReasons, h']
    omega

/-- Claim C2 amended witness at a concrete predictor, explainer and
text. -/
theorem c2_amended_witness :
    ((analyze_requirement (fun _ => 0) (fun _ => [("x", (1:ℚ))]) "a" 20 (3/5)).tags =
      (analyze_requirement (fun _ => 0) (fun _ => []) "a" 20 (3/5)).tags)
    ∧ ((accumulatedReasons (fun _ => 0) (fun _ => [("x", (1:ℚ))]) "a" 20 (3/5)).length =
      (accumulatedReasons (fun _ => 0) (fun _ => []) "a" 20 (3/5)).length + 1) := by
  have h := c2_amended_feature_reason_counts (fun _ => 0) (fun _ => [("x", (1:ℚ))])
    (fun _ => []) "a" 20 (3/5)
  exact ⟨h.1, h.2 (by simp)⟩

/-- Claim C6: the complexity check fires exactly when the token count
strictly exceeds the threshold; in particular a 6-token text triggers
it at threshold 5 and not at threshold 6. -/
theorem c6_complexity_strict_threshold (text : String) (maxLength : Nat) :
    (detect_complex_sentence text maxLength = true ↔
      maxLength < (word_tokenize text).length)
    ∧ ((word_tokenize text).length = 6 →
      detect_complex_sentence text 5 = true ∧ detect_complex_sentence text 6 = false) := by
  constructor
  · simp [detect_complex_sentence]
  · intro h6
    constructor <;> simp [detect_complex_sentence, h6]

/-- Claim C6 witness on a concrete 6-token sentence. -/
theorem c6_witness :
    (word_tokenize "The system shall be very good").length = 6
    ∧ detect_complex_sentence "The system shall be very good" 5 = true
    ∧ detect_complex_sentence "The system shall be very good" 6 = false :=
  ⟨by decide, (c6_complexity_strict_threshold "The system shall be very good" 5).2 (by decide)⟩

/-- Claim C3: the ML-ambiguity reason and the ML_AMBIGUITY tag are added
if and only if the classifier probability exceeds the threshold and the
join of the reason strings accumulated in steps 1-3 does not contain
the literal substring "Vague terms" (a textual check on the reason
strings). -/
theorem c3_ml_guard_textual (pu : String → ℚ) (ef : String → List (String × ℚ))
    (text : String) (maxLength : Nat) (mlThreshold : ℚ) :
    (("ML_AMBIGUITY" ∈ (analyze_requirement pu ef text maxLength mlThreshold).tags) ↔
      (pu text > mlThreshold ∧
        strHasSub "Vague terms" (String.join (rulePhaseReasons text maxLength)) = false))
    ∧ ((mlAmbiguityReason ∈ (analyze_requirement pu ef text maxLength mlThreshold).reasons) ↔
      (pu text > mlThreshold ∧
        strHasSub "Vague terms" (String.join (rulePhaseReasons text maxLength)) = false)) := by
  rw [← mlFires_iff pu text maxLength mlThreshold]
  constructor
  · show "ML_AMBIGUITY" ∈ sortStrs (accumulatedTags pu text maxLength mlThreshold) ↔ _
    rw [mem_sortStrs]
    simp only [accumulatedTags, rulePhaseTags]
    cases hm : mlFires pu text maxLength mlThreshold <;> split_ifs <;> simp_all
  · show mlAmbiguityReason ∈
        (if (accumulatedReasons pu ef text maxLength mlThreshold).isEmpty then
          ["Sentence appears well-defined."]
        else accumulatedReasons pu ef text maxLength mlThreshold) ↔ _
    cases hacc : (accumulatedReasons pu ef text maxLength mlThreshold).isEmpty
    · rw [if_neg (by simp)]
      exact ml_mem_accumulated pu ef text maxLength mlThreshold
    · rw [if_pos rfl]
      have hnil : accumulatedReasons pu ef text maxLength mlThreshold = [] :=
        List.isEmpty_iff.mp hacc
      have hm : mlFires pu text maxLength mlThreshold = false := by
        by_contra hm'
        rw [Bool.not_eq_false] at hm'
        have hmem := (ml_mem_accumulated pu ef text maxLength mlThreshold).mpr hm'
        rw [hnil] at hmem
        simp at hmem
      rw [hm]
      decide

/-- Claim C4 counterexample: on the empty string with default
parameters the verdict status is not Clear (here with a concrete
classifier probability below the threshold and an empty explanation;
the NO_CONSTRAINTS reason already makes the count positive). -/
theorem c4_counterexample :
    (analyze_requirement (fun _ => (1:ℚ)/2) (fun _ => []) "" 20 (3/5)).status ≠ "Clear" := by
  have hrule : rulePhaseReasons "" 20 = ["No measurable constraints provided."] := by decide
  have hml : mlFires (fun _ => (1:ℚ)/2) "" 20 (3/5) = false :=
    mlFires_false_of_le (by norm_num)
  have hacc : accumulatedReasons (fun _ => (1:ℚ)/2) (fun _ => []) "" 20 (3/5) =
      ["No measurable constraints provided."] := by
    simp only [accumulatedReasons]
    rw [hrule, hml]
    simp
  simp only [analyze_requirement]
  rw [hacc]
  decide

/-- Claim C4 (amended): analyze on the empty string raises no exception
and yields a well-defined verdict, but the NO_CONSTRAINTS check fires,
so the status is Partially Clear with severity 2 (never Clear) whenever
the classifier probability does not exceed the default threshold and
the explainer output is empty. -/
theorem c4_amended_empty_partially_clear (pu : String → ℚ)
    (ef : String → List (String × ℚ)) (h1 : pu "" ≤ 3/5) (h2 : ef "" = []) :
    analyze_requirement pu ef "" 20 (3/5) =
      { status := "Partially Clear"
        reasons := ["No measurable constraints provided."]
        tags := ["NO_CONSTRAINTS"]
        severity := 2 } := by
  have hrule : rulePhaseReasons "" 20 = ["No measurable constraints provided."] := by decide
  have hrt : rulePhaseTags "" 20 = ["NO_CONSTRAINTS"] := by decide
  have hml : mlFires pu "" 20 (3/5) = false := mlFires_false_of_le h1
  have hacc : accumulatedReasons pu ef "" 20 (3/5) =
      ["No measurable constraints provided."] := by
    simp only [accumulatedReasons]
    rw [hrule, hml, h2]
    simp
  have htags : accumulatedTags pu "" 20 (3/5) = ["NO_CONSTRAINTS"] := by
    simp only [accumulatedTags]
    rw [hrt, hml]
    simp
  simp only [analyze_requirement]
  rw [hacc, htags]
  decide

/-- Claim C4 amended witness at a concrete predictor and explainer. -/
theorem c4_amended_witness :
    analyze_requirement (fun _ => (1:ℚ)/2) (fun _ => []) "" 20 (3/5) =
      { status := "Partially Clear"
        reasons := ["No measurable constraints provided."]
        tags := ["NO_CONSTRAINTS"]
        severity := 2 } :=
  c4_amended_empty_partially_clear _ _ (by norm_num) rfl

/-- Claim C8: on the scenario-1 input with default parameters the
verdict has VAGUE_TERMS and NO_CONSTRAINTS among its tags, at least two
reasons, status Unclear and severity 3, for every classifier and
explainer. -/
theorem c8_scenario1_unclear (pu : String → ℚ) (ef : String → List (String × ℚ)) :
    ("VAGUE_TERMS" ∈
      (analyze_requirement pu ef "The system shall be fast and scalable." 20 (3/5)).tags)
    ∧ ("NO_CONSTRAINTS" ∈
      (analyze_requirement pu ef "The system shall be fast and scalable." 20 (3/5)).tags)
    ∧ 2 ≤ (analyze_requirement pu ef "The system shall be fast and scalable." 20 (3/5)).reasons.length
    ∧ (analyze_requirement pu ef "The system shall be fast and scalable." 20 (3/5)).status = "Unclear"
    ∧ (analyze_requirement pu ef "The system shall be fast and scalable." 20 (3/5)).severity = 3 := by
  have hrule : rulePhaseReasons "The system shall be fast and scalable." 20 =
      ["Vague terms detected: fast, scalable", "No measurable constraints provided."] := by
    decide
  have hrt : rulePhaseTags "The system shall be fast and scalable." 20 =
      ["VAGUE_TERMS", "NO_CONSTRAINTS"] := by decide
  have hsub : strHasSub "Vague terms"
      (String.join (rulePhaseReasons "The system shall be fast and scalable." 20)) = true := by
    rw [hrule]
    decide
  have hml : mlFires pu "The system shall be fast and scalable." 20 (3/5) = false := by
    simp only [mlFires]
    rw [hsub]
    simp
  have hacc : accumulatedReasons pu ef "The system shall be fast and scalable." 20 (3/5) =
      ["Vague terms detected: fast, scalable", "No measurable constraints provided."] ++
      (if (ef "The system shall be fast and scalable.").isEmpty then []
       else [featureReason (ef "The system shall be fast and scalable.")]) := by
    simp only [accumulatedReasons]
    rw [hrule, hml]
    simp
  have htags : (analyze_requirement pu ef "The system shall be fast and scalable." 20 (3/5)).tags =
      ["NO_CONSTRAINTS", "VAGUE_TERMS"] := by
    show sortStrs (accumulatedTags pu "The system shall be fast and scalable." 20 (3/5)) = _
    rw [show accumulatedTags pu "The system shall be fast and scalable." 20 (3/5) =
        ["VAGUE_TERMS", "NO_CONSTRAINTS"] from by
      simp only [accumulatedTags]
      rw [hrt, hml]
      simp]
    decide
  have hstat : (analyze_requirement pu ef "The system shall be fast and scalable." 20 (3/5)).status
      = "Unclear" := by
    simp only [analyze_requirement]
    rw [hacc]
    cases hef : (ef "The system shall be fast and scalable.").isEmpty <;> simp
  have hsev : (analyze_requirement pu ef "The system shall be fast and scalable." 20 (3/5)).severity
      = 3 := by
    simp only [analyze_requirement]
    rw [hacc]
    cases hef : (ef "The system shall be fast and scalable.").isEmpty <;> simp
  have hlen :
      2 ≤ (analyze_requirement pu ef "The system shall be fast and scalable." 20 (3/5)).reasons.length := by
    simp only [analyze_requirement]
    rw [hacc]
    cases hef : (ef "The system shall be fast and scalable.").isEmpty <;> simp
  exact ⟨by rw [htags]; decide, by rw [htags]; decide, hlen, hstat, hsev⟩

/-- Claim C7: with the VAGUE_TERMS tag, suggest substitutes exactly the
terms of the slice starting at offset (iteration - 1) * 2 (at most two)
of the present-terms list in lexicon-declaration order, so iterations 1
and 2 on a text with at least four vague terms address the first two
and the next two present terms, which are disjoint. -/
theorem c7_slice_and_disjoint (text : String) (iteration : Nat)
    (h : 4 ≤ (detect_vague_terms text).length) :
    toFix text 1 = (detect_vague_terms text).take 2
    ∧ toFix text 2 = ((detect_vague_terms text).drop 2).take 2
    ∧ List.Disjoint (toFix text 1) (toFix text 2)
    ∧ suggest_rewrite text ["VAGUE_TERMS"] iteration =
        (toFix text iteration).foldl
          (fun acc term => ⟨replaceCI term.data (replacementFor term).data acc.data⟩)
          text := by
  obtain ⟨a, b, c, d, rest, hP⟩ :
      ∃ a b c d rest, detect_vague_terms text = a :: b :: c :: d :: rest := by
    rcases hP : detect_vague_terms text with _ | ⟨a, _ | ⟨b, _ | ⟨c, _ | ⟨d, rest⟩⟩⟩⟩
    · rw [hP] at h; simp at h
    · rw [hP] at h; simp at h
    · rw [hP] at h; simp at h
    · rw [hP] at h; simp at h
    · exact ⟨a, b, c, d, rest, rfl⟩
  have nd : (detect_vague_terms text).Nodup := by
    have hvw : VAGUE_WORDS.Nodup := by decide
    exact hvw.filter _
  rw [hP] at nd
  have ht1 : toFix text 1 = [a, b] := by simp [toFix, hP]
  have ht2 : toFix text 2 = [c, d] := by simp [toFix, hP]
  refine ⟨by rw [ht1, hP]; rfl, by rw [ht2, hP]; rfl, ?_, ?_⟩
  · rw [ht1, ht2]
    simp only [List.nodup_cons, List.mem_cons, not_or] at nd
    intro x hx hy
    simp only [List.mem_cons, List.not_mem_nil, or_false] at hx hy
    rcases hx with rfl | rfl <;> rcases hy with rfl | rfl <;> tauto
  · simp only [suggest_rewrite]
    rw [if_neg
      (fun hc => absurd hc.1
        (by decide : ¬ ("COMPLEX_SENTENCE" ∈ (["VAGUE_TERMS"] : List String))))]
    rw [if_neg (by decide : ¬ ("NO_CONSTRAINTS" ∈ (["VAGUE_TERMS"] : List String)))]
    rw [if_pos (by decide : ("VAGUE_TERMS" ∈ (["VAGUE_TERMS"] : List String)))]

/-- Claim C7 witness on a text with exactly four vague terms. -/
theorem c7_witness :
    4 ≤ (detect_vague_terms "fast quick many large").length
    ∧ List.Disjoint (toFix "fast quick many large" 1) (toFix "fast quick many large" 2) :=
  ⟨by decide, (c7_slice_and_disjoint "fast quick many large" 1 (by decide)).2.2.1⟩

/-- Claim C9: every input whose lowercase form is exactly the lexicon
term is rewritten by the highlighting transforms to the lowercase
lexicon form wrapped in the emphasis marker, so the original
capitalization of the matched substring is not preserved. -/
theorem c9_lowercase_rewrite (s : String) (h : lowerStr s = "fast") :
    highlight_vague_terms s = "**fast**"
    ∧ highlight_vague_terms_colored s = ":red[fast]" := by
  have hdata : s.data.map Char.toLower = "fast".data := congrArg String.data h
  have hsorted : sortByLenDesc VAGUE_WORDS =
      ["user-friendly", "efficient", "scalable", "flexible", "reliable", "secure",
       "simple", "robust", "quick", "large", "fast", "many", "easy"] := by decide
  constructor
  · simp only [highlight_vague_terms, hsorted, h, List.foldl]
    simp +decide only [if_true, if_false]
    rw [replaceCI_whole s.data]
    · decide
    · decide
    · rw [hdata]
  · simp only [highlight_vague_terms_colored, hsorted, h, List.foldl]
    simp +decide only [if_true, if_false]
    rw [replaceCI_whole s.data]
    · decide
    · decide
    · rw [hdata]

/-- Claim C9 witness on the capitalized input. -/
theorem c9_witness :
    lowerStr "Fast" = "fast"
    ∧ highlight_vague_terms "Fast" = "**fast**"
    ∧ highlight_vague_terms_colored "Fast" = ":red[fast]" :=
  ⟨by decide, (c9_lowercase_rewrite "Fast" (by decide)).1, (c9_lowercase_rewrite "Fast" (by decide)).2⟩

end UnclearReq
